import Mathlib

/-!
The traj_follower repository: trajectory hot-swap loop, path file writer,
driver selector and trajectory generator.

A shallow embedding of `ros/src/follower/src/path_follower.cpp` and
`ros/src/traj_gen/src/traj_gen.cpp`.

* `double` values are modelled by `Double`: NaN, the two infinities and the
  finite values (as rationals, the two signed zeros identified: they compare
  equal).  Comparison follows IEEE-754 (`NaN` is unequal to everything,
  itself included); a sum and a conversion from an integer are rounded to the
  nearest binary64 value, ties to even (`Double.round`).
* `std::vector<double>` is `List Double`; `operator==`/`operator!=` are
  `vecEq`/`vecNe`.
* The text file written by `write_path` is a list of lines, each line the list
  of numbers its text denotes: a stream writes a double with 6 significant
  decimal digits (`Double.written`).
* An out-of-range `operator[]` read and the overflow of an `int` are undefined
  behaviour: the model of the enclosing function returns `none`.
-/

namespace TrajFollower

/-! ## Numbers and vectors -/

/-- The quotient `n / d` rounded to the nearest integer, a tie going to the
even neighbour. -/
def roundHalfEven (n d : Nat) : Nat :=
  let q := n / d
  let r := n % d
  if 2 * r < d then q else if d < 2 * r then q + 1 else if q % 2 = 0 then q else q + 1

/-- The greatest `e` with `base ^ e ≤ n`, for `1 ≤ n`, found in at most `fuel`
divisions (`fuel = n` is enough). -/
def ilog (base : Nat) : Nat → Nat → Nat
  | 0, _ => 0
  | fuel + 1, n => if n < base then 0 else ilog base fuel (n / base) + 1

/-- The least `k ≥ 1` with `b ≤ a * base ^ k`, for `0 < a < b`, found in at most
`fuel` multiplications (`fuel = b` is enough). -/
def nlog (base : Nat) : Nat → Nat → Nat → Nat
  | 0, _, _ => 1
  | fuel + 1, a, b => if b ≤ a * base then 1 else nlog base fuel (a * base) b + 1

/-- The exponent `e` with `base ^ e ≤ a / b < base ^ (e + 1)`, for a positive
fraction `a / b`. -/
def floorLog (base a b : Nat) : Int :=
  if b ≤ a then Int.ofNat (ilog base a (a / b)) else Int.negSucc (nlog base b a b - 1)

/-- The multiple of `base ^ s` nearest to the positive fraction `a / b` (ties
to the even multiple), as numerator and denominator. -/
def roundToQuantum (a b base : Nat) : Int → Nat × Nat
  | Int.ofNat k => (roundHalfEven a (b * base ^ k) * base ^ k, 1)
  | Int.negSucc k => (roundHalfEven (a * base ^ (k + 1)) b, base ^ (k + 1))

/-- A rational rounded to 6 significant decimal digits, ties to even: the
number denoted by the text that `printf` with `%g` at precision 6 produces. -/
def round6 (q : ℚ) : ℚ :=
  match q.num with
  | Int.ofNat 0 => 0
  | Int.ofNat (a + 1) =>
    let r := roundToQuantum (a + 1) q.den 10 (floorLog 10 (a + 1) q.den - 5)
    mkRat (Int.ofNat r.1) r.2
  | Int.negSucc a =>
    let r := roundToQuantum (a + 1) q.den 10 (floorLog 10 (a + 1) q.den - 5)
    mkRat (Int.negOfNat r.1) r.2

/-- A C++ `double`: NaN, plus or minus infinity, or a finite value. -/
inductive Double where
  | nan : Double
  | inf (neg : Bool) : Double
  | num (q : ℚ) : Double
  deriving DecidableEq

namespace Double

/-- The C++ `a == b` on doubles: false as soon as one side is NaN. -/
def eq : Double → Double → Bool
  | num p, num q => decide (p = q)
  | inf s, inf t => s == t
  | _, _ => false

/-- The C++ `a != b` on doubles, the negation of `==` (true when one side is NaN). -/
def ne (a b : Double) : Bool := !(eq a b)

/-- The C++ `a >= b` on doubles: false as soon as one side is NaN. -/
def ge : Double → Double → Bool
  | num p, num q => decide (q ≤ p)
  | inf false, inf _ => true
  | inf false, num _ => true
  | num _, inf true => true
  | inf true, inf true => true
  | _, _ => false

/-- The double with sign `neg` and magnitude `r.1 / r.2`, a magnitude of
`2 ^ 1024` (written `(2 ^ 256) ^ 4`) or more overflowing to infinity. -/
def ofMagnitude (neg : Bool) (r : Nat × Nat) : Double :=
  if (2 ^ 256) ^ 4 * r.2 ≤ r.1 then inf neg
  else num (mkRat (if neg then Int.negOfNat r.1 else Int.ofNat r.1) r.2)

/-- A rational rounded to the nearest binary64 value, ties to even: 53
significant bits for a normal number, multiples of `2 ^ (-1074)` below
`2 ^ (-1022)`, infinity on overflow. -/
def round (q : ℚ) : Double :=
  match q.num with
  | Int.ofNat 0 => num 0
  | Int.ofNat (a + 1) =>
    ofMagnitude false
      (roundToQuantum (a + 1) q.den 2 (max (floorLog 2 (a + 1) q.den) (-1022) - 52))
  | Int.negSucc a =>
    ofMagnitude true
      (roundToQuantum (a + 1) q.den 2 (max (floorLog 2 (a + 1) q.den) (-1022) - 52))

/-- The C++ `a + b` on doubles: the exact sum of two finite values, rounded. -/
def add : Double → Double → Double
  | num p, num q => round (p + q)
  | nan, _ => nan
  | _, nan => nan
  | inf s, inf t => if s = t then inf s else nan
  | inf s, num _ => inf s
  | num _, inf t => inf t

/-- Conversion of a container size (or an `int`) to `double`. -/
def ofNat (n : Nat) : Double := round (n : ℚ)

/-- The number denoted by the text that `stream << d` writes for a double at
the default precision: 6 significant decimal digits (`nan` and `inf` are
written as such). -/
def written : Double → Double
  | nan => nan
  | inf s => inf s
  | num q => num (round6 q)

end Double

/-- The range comparison `std::equal(x.begin(), x.end(), y.begin())` that
`operator==` on vectors runs once the sizes are known to agree. -/
def std_equal : List Double → List Double → Bool
  | [], _ => true
  | _ :: _, [] => false
  | a :: as, b :: bs => if Double.eq a b then std_equal as bs else false

/-- The `operator==` of `std::vector<double>`: same size and equal element by element. -/
def vecEq (x y : List Double) : Bool :=
  x.length == y.length && std_equal x y

/-- The `operator!=` of `std::vector<double>`, defined as `!(x == y)`. -/
def vecNe (x y : List Double) : Bool := !(vecEq x y)

/-! ## The path file -/

/-- Contents of a text file: its lines, each the numbers its text denotes. -/
abbrev PathFile := List (List Double)

/-- The constant `num_cols = 3` of `write_path`. -/
def num_cols : Double := Double.num 3

/-- The constant `z_val = 0.5` of `write_path`. -/
def z_val : Double := Double.num (mkRat 1 2)

/-- The largest value of an `int`. -/
def INT_MAX : Nat := 2147483647

/-- The `for` loop of `write_path` from counter `pt_cnt` with `todo` iterations
left (`todo = num_pts - pt_cnt`): each iteration reads `x_traj_curr[pt_cnt]`
and `y_traj_curr[pt_cnt]`, writes one line and increments the `int` counter.
The loop test `pt_cnt < num_pts` compares the counter with the size as a
`double`, which is the size itself up to `INT_MAX`; for a larger size the
increment overflows before the test can differ. -/
def write_rows (x_traj_curr y_traj_curr : List Double) : Nat → Nat → Option PathFile
  | _, 0 => some []
  | pt_cnt, todo + 1 =>
    match x_traj_curr[pt_cnt]?, y_traj_curr[pt_cnt]? with
    | some x, some y =>
      if INT_MAX < pt_cnt + 1 then none
      else
        match write_rows x_traj_curr y_traj_curr (pt_cnt + 1) todo with
        | some rest => some ([x.written, y.written, z_val.written] :: rest)
        | none => none
    | _, _ => none

/-- The function `write_path`: the file is truncated, a header line with
`num_pts` (the size, converted to `double`) and `num_cols` is written, then one
line per point. -/
def write_path (x_traj_curr y_traj_curr : List Double) : Option PathFile :=
  let num_pts := Double.ofNat x_traj_curr.length
  match write_rows x_traj_curr y_traj_curr 0 x_traj_curr.length with
  | some rows => some ([num_pts.written, num_cols.written] :: rows)
  | none => none

/-! ## Chrono and Irrlicht objects (external libraries, reduced to what `main` observes) -/

/-- A point `ChVector<>`. -/
structure ChVector where
  x : Double
  y : Double
  z : Double
  deriving DecidableEq

/-- The curve `ChBezierCurve`, by the knots it was built from. -/
structure ChBezierCurve where
  points : List ChVector
  deriving DecidableEq

/-- The knot on one data line of a three-column path file. -/
def knotOfLine : List Double → Option ChVector
  | [x, y, z] => some { x := x, y := y, z := z }
  | _ => none

/-- The call `ChBezierCurve::read(path_file)` on a three-column file: the header
line is skipped and every data line gives one knot. -/
def ChBezierCurve.read (file : PathFile) : ChBezierCurve :=
  { points := file.tail.filterMap knotOfLine }

/-- The steering controller of the follower: the path it tracks, the sentinel
and target points, the PID error terms and the data-collection flags
(`m_csv` is true once a CSV writer has been allocated). -/
structure ChPathSteeringController where
  m_path : ChBezierCurve
  m_sentinel : ChVector
  m_target : ChVector
  m_err : Double
  m_erri : Double
  m_errd : Double
  m_collect : Bool
  m_csv : Bool
  deriving DecidableEq

/-- The speed controller of the follower: its PID error terms. -/
structure ChSpeedController where
  m_err : Double
  m_erri : Double
  m_errd : Double
  deriving DecidableEq

/-- The driver `ChPathFollowerDriver`: the driver outputs and the two controllers. -/
structure ChPathFollowerDriver where
  m_throttle : Double
  m_steering : Double
  m_braking : Double
  m_target_speed : Double
  m_steeringPID : ChPathSteeringController
  m_speedPID : ChSpeedController
  deriving DecidableEq

/-- The driver `ChIrrGuiDriver`: the driver outputs set from the keyboard. -/
structure ChIrrGuiDriver where
  m_throttle : Double
  m_steering : Double
  m_braking : Double
  deriving DecidableEq

/-- Construction and `Initialize()` of a `ChPathFollowerDriver` on `path`:
outputs and PID error terms are zero, no data is collected, and the controller
reset places the sentinel and target points `marks` for the vehicle pose. -/
def ChPathFollowerDriver.create (path : ChBezierCurve) (target_speed : Double)
    (marks : ChVector × ChVector) : ChPathFollowerDriver :=
  { m_throttle := Double.num 0, m_steering := Double.num 0, m_braking := Double.num 0,
    m_target_speed := target_speed,
    m_steeringPID :=
      { m_path := path, m_sentinel := marks.1, m_target := marks.2,
        m_err := Double.num 0, m_erri := Double.num 0, m_errd := Double.num 0,
        m_collect := false, m_csv := false },
    m_speedPID := { m_err := Double.num 0, m_erri := Double.num 0, m_errd := Double.num 0 } }

/-- Construction and `Initialize()` of the GUI driver. -/
def ChIrrGuiDriver.create : ChIrrGuiDriver :=
  { m_throttle := Double.num 0, m_steering := Double.num 0, m_braking := Double.num 0 }

/-- The call `SetThrottle(val)` on the GUI driver, for a value read from another
driver's `GetThrottle()` (already within the throttle range). -/
def ChIrrGuiDriver.SetThrottle (g : ChIrrGuiDriver) (val : Double) : ChIrrGuiDriver :=
  { g with m_throttle := val }

/-- The call `SetSteering(val)` on the GUI driver, for a value read from another
driver's `GetSteering()` (already within the steering range). -/
def ChIrrGuiDriver.SetSteering (g : ChIrrGuiDriver) (val : Double) : ChIrrGuiDriver :=
  { g with m_steering := val }

/-- The call `SetBraking(val)` on the GUI driver, for a value read from another
driver's `GetBraking()` (already within the braking range). -/
def ChIrrGuiDriver.SetBraking (g : ChIrrGuiDriver) (val : Double) : ChIrrGuiDriver :=
  { g with m_braking := val }

/-- The call `StartDataCollection()` of the steering controller. -/
def ChPathSteeringController.StartDataCollection (c : ChPathSteeringController) :
    ChPathSteeringController :=
  { c with m_collect := true, m_csv := true }

/-- The call `StopDataCollection()` of the steering controller. -/
def ChPathSteeringController.StopDataCollection (c : ChPathSteeringController) :
    ChPathSteeringController :=
  { c with m_collect := false }

/-- The Irrlicht event types. -/
inductive EEVENT_TYPE where
  | EET_GUI_EVENT
  | EET_MOUSE_INPUT_EVENT
  | EET_KEY_INPUT_EVENT
  | EET_JOYSTICK_INPUT_EVENT
  | EET_LOG_TEXT_EVENT
  | EET_USER_EVENT
  deriving DecidableEq

/-- The `KeyInput` member of an event: key code and whether the key went down. -/
structure SKeyInput where
  Key : Nat
  PressedDown : Bool
  deriving DecidableEq

/-- An Irrlicht event `irr::SEvent`. -/
structure SEvent where
  EventType : EEVENT_TYPE
  KeyInput : SKeyInput
  deriving DecidableEq

/-- Key code `irr::KEY_END`. -/
def KEY_END : Nat := 0x23
/-- Key code `irr::KEY_HOME`. -/
def KEY_HOME : Nat := 0x24
/-- Key code `irr::KEY_INSERT`. -/
def KEY_INSERT : Nat := 0x2D
/-- Key code `irr::KEY_COMMA`. -/
def KEY_COMMA : Nat := 0xBC
/-- Key code `irr::KEY_PERIOD`. -/
def KEY_PERIOD : Nat := 0xBE

/-! ## The driver selector -/

/-- The target of the pointer `m_driver`: one of the two drivers. -/
inductive DriverPtr where
  | follower
  | gui
  deriving DecidableEq

/-- The members of `ChDriverSelector` that change: `m_using_gui` and `m_driver`. -/
structure ChDriverSelector where
  m_using_gui : Bool
  m_driver : DriverPtr
  deriving DecidableEq

/-- The constructor of `ChDriverSelector`: the follower is selected. -/
def ChDriverSelector.new : ChDriverSelector :=
  { m_using_gui := false, m_driver := DriverPtr.follower }

/-- The method `UsingGUI()`. -/
def ChDriverSelector.UsingGUI (s : ChDriverSelector) : Bool := s.m_using_gui

/-- The method `GetDriver()`. -/
def ChDriverSelector.GetDriver (s : ChDriverSelector) : DriverPtr := s.m_driver

/-- A selector together with the two drivers its pointers refer to. -/
structure Rig where
  selector : ChDriverSelector
  driver_follower : ChPathFollowerDriver
  driver_gui : ChIrrGuiDriver
  deriving DecidableEq

/-- A call made by `OnEvent` on the follower's steering controller;
`WriteOutputFile` carries the vehicle time that names the file. -/
inductive Call where
  | StartDataCollection
  | StopDataCollection
  | WriteOutputFile (time : Double)
  deriving DecidableEq

/-- The outcome of `OnEvent`: the returned flag, the objects afterwards and the
calls made on the steering controller. -/
structure Handled where
  ret : Bool
  rig : Rig
  calls : List Call
  deriving DecidableEq

/-- The method `ChDriverSelector::OnEvent`, at vehicle time `time`. -/
def ChDriverSelector.OnEvent (time : Double) (r : Rig) (event : SEvent) : Handled :=
  if event.EventType ≠ EEVENT_TYPE.EET_KEY_INPUT_EVENT then
    { ret := false, rig := r, calls := [] }
  else if event.KeyInput.PressedDown then
    { ret := false, rig := r, calls := [] }
  else if event.KeyInput.Key = KEY_COMMA then
    if r.selector.m_using_gui then
      { ret := true,
        rig := { r with selector := { m_using_gui := false, m_driver := DriverPtr.follower } },
        calls := [] }
    else { ret := true, rig := r, calls := [] }
  else if event.KeyInput.Key = KEY_PERIOD then
    if !r.selector.m_using_gui then
      { ret := true,
        rig :=
          { selector := { m_using_gui := true, m_driver := DriverPtr.gui },
            driver_follower := r.driver_follower,
            driver_gui :=
              ((r.driver_gui.SetThrottle r.driver_follower.m_throttle).SetSteering
                r.driver_follower.m_steering).SetBraking r.driver_follower.m_braking },
        calls := [] }
    else { ret := true, rig := r, calls := [] }
  else if event.KeyInput.Key = KEY_HOME then
    if !r.selector.m_using_gui && !r.driver_follower.m_steeringPID.m_collect then
      { ret := true,
        rig :=
          { r with driver_follower :=
              { r.driver_follower with
                m_steeringPID := r.driver_follower.m_steeringPID.StartDataCollection } },
        calls := [Call.StartDataCollection] }
    else { ret := true, rig := r, calls := [] }
  else if event.KeyInput.Key = KEY_END then
    if !r.selector.m_using_gui && r.driver_follower.m_steeringPID.m_collect then
      { ret := true,
        rig :=
          { r with driver_follower :=
              { r.driver_follower with
                m_steeringPID := r.driver_follower.m_steeringPID.StopDataCollection } },
        calls := [Call.StopDataCollection] }
    else { ret := true, rig := r, calls := [] }
  else if event.KeyInput.Key = KEY_INSERT then
    if !r.selector.m_using_gui && r.driver_follower.m_steeringPID.m_csv then
      { ret := true, rig := r, calls := [Call.WriteOutputFile time] }
    else { ret := true, rig := r, calls := [] }
  else
    { ret := false, rig := r, calls := [] }

/-- A sequence of events, each with the vehicle time at which it arrives,
handled one after the other: the objects afterwards and the calls made, in order. -/
def handleAll : Rig → List (Double × SEvent) → Rig × List Call
  | r, [] => (r, [])
  | r, e :: es =>
    let h := ChDriverSelector.OnEvent e.1 r e.2
    let rest := handleAll h.rig es
    (rest.1, h.calls ++ rest.2)

/-- The release of key `key`, as a keyboard event. -/
def keyReleased (key : Nat) : SEvent :=
  { EventType := EEVENT_TYPE.EET_KEY_INPUT_EVENT, KeyInput := { Key := key, PressedDown := false } }

/-- Start and stop calls alternate in a list of calls, given whether collection
is enabled before the first of them: a start is only made while it is disabled
and a stop only while it is enabled. -/
def alternating : Bool → List Call → Bool
  | _, [] => true
  | false, Call.StartDataCollection :: cs => alternating true cs
  | true, Call.StopDataCollection :: cs => alternating false cs
  | b, Call.WriteOutputFile _ :: cs => alternating b cs
  | _, _ => false

/-- The throttle, steering and braking read through `GetDriver()`. -/
def Rig.command (r : Rig) : Double × Double × Double :=
  match r.selector.GetDriver with
  | DriverPtr.follower =>
    (r.driver_follower.m_throttle, r.driver_follower.m_steering, r.driver_follower.m_braking)
  | DriverPtr.gui =>
    (r.driver_gui.m_throttle, r.driver_gui.m_steering, r.driver_gui.m_braking)

/-! ## The simulation loop of `main` -/

/-- The global `target_speed = 12`. -/
def target_speed : Double := Double.num 12

/-- The global `t_end = 100`. -/
def t_end : Double := Double.num 100

/-- What the window system and the vehicle simulation supply in one loop
iteration: the events dispatched by `app.GetDevice()->run()`, the simulation
time, the sentinel and target points a controller reset computes for a path at
the current vehicle pose, and the effect of `Synchronize` followed by `Advance`
on each driver. -/
structure Env where
  events : List SEvent
  time : Double
  marks : ChBezierCurve → ChVector × ChVector
  follower_step : ChPathFollowerDriver → ChPathFollowerDriver
  gui_step : ChIrrGuiDriver → ChIrrGuiDriver

/-- The selector object the application holds as its user event receiver: the
one declared in the scope of `main`, or one declared inside the trajectory-change
block, which is destroyed when the block ends. -/
inductive Receiver where
  | main_selector
  | block_selector
  deriving DecidableEq

/-- The variables of `main` that live across loop iterations, and the contents
of the path file: the trajectory snapshot, the curve `path`, the objects
`driver_follower`, `driver_gui` and `selector` declared in the scope of `main`
(as `rig`), and the registered event receiver. -/
structure MainState where
  x_traj_prev : List Double
  y_traj_prev : List Double
  path_file : PathFile
  path : ChBezierCurve
  rig : Rig
  receiver : Receiver
  deriving DecidableEq

/-- The part of `main` before the loop, for the trajectory first read into
`x_traj_curr`, `y_traj_curr`: snapshot, path file, curve, drivers, selector. -/
def startup (marks : ChBezierCurve → ChVector × ChVector)
    (x_traj_curr y_traj_curr : List Double) : Option MainState :=
  match write_path x_traj_curr y_traj_curr with
  | none => none
  | some file =>
    let path := ChBezierCurve.read file
    some
      { x_traj_prev := x_traj_curr, y_traj_prev := y_traj_curr,
        path_file := file, path := path,
        rig :=
          { selector := ChDriverSelector.new,
            driver_follower := ChPathFollowerDriver.create path target_speed (marks path),
            driver_gui := ChIrrGuiDriver.create },
        receiver := Receiver.main_selector }

/-- The condition `x_traj_curr != x_traj_prev || y_traj_curr != y_traj_prev`. -/
def trajChanged (s : MainState) (x_traj_curr y_traj_curr : List Double) : Bool :=
  vecNe x_traj_curr s.x_traj_prev || vecNe y_traj_curr s.y_traj_prev

/-- The outcome of the trajectory check of one iteration: the variables of
`main` afterwards, whether the branch was taken, and the follower driver that
the branch constructed in its own block (gone when the block ends). -/
structure Polled where
  state : MainState
  changed : Bool
  rebuilt : Option ChPathFollowerDriver
  deriving DecidableEq

/-- The trajectory check at the top of the loop body, `x_traj_curr` and
`y_traj_curr` holding the arrays just read from the parameter server.  In the
branch the path file is rewritten, a follower driver and a selector are
declared inside the block from the curve `path`, that selector is registered as
event receiver, and the snapshot is updated; the variables `driver_follower`
and `selector` of the enclosing scope are not assigned. -/
def poll (env : Env) (s : MainState) (x_traj_curr y_traj_curr : List Double) :
    Option Polled :=
  if trajChanged s x_traj_curr y_traj_curr then
    match write_path x_traj_curr y_traj_curr with
    | none => none
    | some file =>
      some
        { state :=
            { x_traj_prev := x_traj_curr, y_traj_prev := y_traj_curr,
              path_file := file, path := s.path, rig := s.rig,
              receiver := Receiver.block_selector },
          changed := true,
          rebuilt := some (ChPathFollowerDriver.create s.path target_speed (env.marks s.path)) }
  else
    some { state := s, changed := false, rebuilt := none }

/-- Event dispatch inside `run()`: the registered receiver handles the events.
A receiver that was destroyed cannot be called (undefined behaviour). -/
def dispatch (env : Env) (s : MainState) : Option (MainState × List Call) :=
  match s.receiver with
  | Receiver.main_selector =>
    let h := handleAll s.rig (env.events.map (fun e => (env.time, e)))
    some ({ s with rig := h.1 }, h.2)
  | Receiver.block_selector =>
    match env.events with
    | [] => some (s, [])
    | _ :: _ => none

/-- What one loop iteration hands to the vehicle and the renderer: the driver
inputs read through `selector.GetDriver()`, the sentinel and target points read
from `driver_follower`, and the flag `selector.UsingGUI()`. -/
structure Outputs where
  throttle_input : Double
  steering_input : Double
  braking_input : Double
  pS : ChVector
  pT : ChVector
  using_gui : Bool
  deriving DecidableEq

/-- The outcome of one loop iteration; `outputs` is `none` when the loop is
left at `time >= t_end`. -/
structure Iteration where
  state : MainState
  changed : Bool
  rebuilt : Option ChPathFollowerDriver
  calls : List Call
  outputs : Option Outputs
  deriving DecidableEq

/-- One iteration of the simulation loop (the device reports that it is still
running): event dispatch, trajectory check, the test for the end of the
simulation, reading of the driver inputs and marker points, then
`Synchronize` and `Advance` of `driver_follower` and `driver_gui`. -/
def loop_body (env : Env) (s : MainState) (x_traj_curr y_traj_curr : List Double) :
    Option Iteration :=
  match dispatch env s with
  | none => none
  | some (s1, calls) =>
    match poll env s1 x_traj_curr y_traj_curr with
    | none => none
    | some p =>
      if Double.ge env.time t_end then
        some { state := p.state, changed := p.changed, rebuilt := p.rebuilt,
               calls := calls, outputs := none }
      else
        let cmd := p.state.rig.command
        let out : Outputs :=
          { throttle_input := cmd.1, steering_input := cmd.2.1, braking_input := cmd.2.2,
            pS := p.state.rig.driver_follower.m_steeringPID.m_sentinel,
            pT := p.state.rig.driver_follower.m_steeringPID.m_target,
            using_gui := p.state.rig.selector.UsingGUI }
        some
          { state :=
              { p.state with
                rig :=
                  { selector := p.state.rig.selector,
                    driver_follower := env.follower_step p.state.rig.driver_follower,
                    driver_gui := env.gui_step p.state.rig.driver_gui } },
            changed := p.changed, rebuilt := p.rebuilt, calls := calls, outputs := some out }

/-! ## The trajectory generator -/

/-- The variables of the generator's `main`: the vectors `x2`, `y2` and `count`. -/
structure TrajGen where
  x2 : List Double
  y2 : List Double
  count : Double
  deriving DecidableEq

/-- The generator before its loop: `x2(2,200)`, `y2(2,0)`, `count = 0`. -/
def TrajGen.init : TrajGen :=
  { x2 := List.replicate 2 (Double.num 200), y2 := List.replicate 2 (Double.num 0),
    count := Double.num 0 }

/-- One iteration of the generator's loop: the four element assignments, the
two `setParam` calls (the pair published) and `count += 1`. -/
def TrajGen.iterate (g : TrajGen) : TrajGen × (List Double × List Double) :=
  let x2 := (g.x2.set 0 (Double.num 0)).set 1 (Double.num 50)
  let y2 := (g.y2.set 0 (Double.num 0)).set 1 g.count
  ({ x2 := x2, y2 := y2, count := Double.add g.count (Double.num 1) }, (x2, y2))

/-- The generator's variables when `k` iterations have run. -/
def TrajGen.after : Nat → TrajGen
  | 0 => TrajGen.init
  | k + 1 => (TrajGen.after k).iterate.1

/-- The pair of arrays published in iteration `k` (counted from 0). -/
def TrajGen.published (k : Nat) : List Double × List Double :=
  (TrajGen.after k).iterate.2

/-! ## Words of the specification -/

/-- Two arrays differ: their lengths differ, or the elements at some common
index are unequal as doubles. -/
def differs (a b : List Double) : Prop :=
  a.length ≠ b.length ∨
    ∃ i : Nat, ∃ ha : i < a.length, ∃ hb : i < b.length, Double.ne (a.get ⟨i, ha⟩) (b.get ⟨i, hb⟩) = true

/-- Two arrays differ as sequences of values: their lengths differ, or the
elements at some common index are not the same value. -/
def arraysDiffer (a b : List Double) : Prop :=
  a.length ≠ b.length ∨
    ∃ i : Nat, ∃ ha : i < a.length, ∃ hb : i < b.length, a.get ⟨i, ha⟩ ≠ b.get ⟨i, hb⟩

/-! ## A sample run: startup on one trajectory, then a different one arrives -/

/-- The trajectory x = [0, 50], y = [0, 0] present at startup. -/
def P1 : List Double × List Double :=
  ([Double.num 0, Double.num 50], [Double.num 0, Double.num 0])

/-- A later trajectory x = [0, 50], y = [0, 1]. -/
def P2 : List Double × List Double :=
  ([Double.num 0, Double.num 50], [Double.num 0, Double.num 1])

/-- A trajectory whose first x value is NaN. -/
def PNaN : List Double × List Double :=
  ([Double.nan, Double.num 50], [Double.num 0, Double.num 0])

/-- A step of the follower driver that leaves full throttle and an accumulated
integral error of 7 in the steering controller. -/
def sampleStep (f : ChPathFollowerDriver) : ChPathFollowerDriver :=
  { f with
    m_throttle := Double.num 1,
    m_steeringPID := { f.m_steeringPID with m_erri := Double.num 7 } }

/-- An iteration without events at time 0; a controller reset puts the sentinel
on the first knot of its path and the target on the last. -/
def sampleEnv : Env :=
  { events := [], time := Double.num 0,
    marks := fun path =>
      (path.points.headD { x := Double.num 0, y := Double.num 0, z := Double.num 0 },
       path.points.getLastD { x := Double.num 0, y := Double.num 0, z := Double.num 0 }),
    follower_step := sampleStep,
    gui_step := fun g => g }

/-- The variables of `main` after startup on `P1`. -/
def sampleStart : Option MainState := startup sampleEnv.marks P1.1 P1.2

/-- The variables of `main` after startup on `P1`, written out. -/
def sampleState : MainState :=
  { x_traj_prev := P1.1, y_traj_prev := P1.2,
    path_file :=
      [[Double.num 2, Double.num 3], [Double.num 0, Double.num 0, z_val],
       [Double.num 50, Double.num 0, z_val]],
    path :=
      { points :=
          [{ x := Double.num 0, y := Double.num 0, z := z_val },
           { x := Double.num 50, y := Double.num 0, z := z_val }] },
    rig :=
      { selector := ChDriverSelector.new,
        driver_follower :=
          ChPathFollowerDriver.create
            { points :=
                [{ x := Double.num 0, y := Double.num 0, z := z_val },
                 { x := Double.num 50, y := Double.num 0, z := z_val }] }
            target_speed
            ({ x := Double.num 0, y := Double.num 0, z := z_val },
             { x := Double.num 50, y := Double.num 0, z := z_val }),
        driver_gui := ChIrrGuiDriver.create },
    receiver := Receiver.main_selector }

/-- Startup on `P1`, one iteration that polls `P1` again, then one iteration
that polls `P2`: the outcomes of the two iterations. -/
def sampleSwap : Option (Iteration × Iteration) :=
  match sampleStart with
  | none => none
  | some s0 =>
    match loop_body sampleEnv s0 P1.1 P1.2 with
    | none => none
    | some it1 =>
      match loop_body sampleEnv it1.state P2.1 P2.2 with
      | none => none
      | some it2 => some (it1, it2)

/-- The objects after a freshly constructed selector on the drivers `f`, `g`
has handled the events `es`. -/
def afterEvents (f : ChPathFollowerDriver) (g : ChIrrGuiDriver) (es : List (Double × SEvent)) :
    Rig :=
  (handleAll { selector := ChDriverSelector.new, driver_follower := f, driver_gui := g } es).1

/-! ## Comparison of doubles and vectors -/

theorem Double.eq_sound {a b : Double} (h : Double.eq a b = true) : a = b := by
  cases a <;> cases b <;> simp_all [Double.eq]

theorem Double.eq_self_of_not_nan {a : Double} (h : a ≠ Double.nan) : Double.eq a a = true := by
  cases a <;> simp_all [Double.eq]

theorem std_equal_sound : ∀ {x y : List Double}, x.length = y.length →
    std_equal x y = true → x = y
  | [], [], _, _ => rfl
  | [], _ :: _, hl, _ => by simp at hl
  | _ :: _, [], hl, _ => by simp at hl
  | a :: as, b :: bs, hl, h => by
    simp only [std_equal] at h
    split at h
    · rename_i hab
      have hab2 := Double.eq_sound hab
      have hl2 : as.length = bs.length := by simpa using hl
      rw [hab2, std_equal_sound hl2 h]
    · simp at h

theorem vecEq_sound {x y : List Double} (h : vecEq x y = true) : x = y := by
  simp only [vecEq, Bool.and_eq_true, beq_iff_eq] at h
  exact std_equal_sound h.1 h.2

theorem std_equal_self : ∀ {x : List Double}, (∀ d ∈ x, d ≠ Double.nan) → std_equal x x = true
  | [], _ => rfl
  | a :: as, h => by
    have ha : Double.eq a a = true := Double.eq_self_of_not_nan (h a (by simp))
    have hr : std_equal as as = true := std_equal_self (fun d hd => h d (by simp [hd]))
    simp [std_equal, ha, hr]

theorem vecNe_self {x : List Double} (h : ∀ d ∈ x, d ≠ Double.nan) : vecNe x x = false := by
  simp [vecNe, vecEq, std_equal_self h]

theorem std_equal_false_iff : ∀ (x y : List Double), x.length = y.length →
    (std_equal x y = false ↔
      ∃ i : Nat, ∃ ha : i < x.length, ∃ hb : i < y.length,
        Double.ne (x.get ⟨i, ha⟩) (y.get ⟨i, hb⟩) = true)
  | [], [], _ => by simp [std_equal]
  | [], _ :: _, hl => by simp at hl
  | _ :: _, [], hl => by simp at hl
  | a :: as, b :: bs, hl => by
    have hl2 : as.length = bs.length := by simpa using hl
    have ih := std_equal_false_iff as bs hl2
    constructor
    · intro h
      simp only [std_equal] at h
      by_cases hab : Double.eq a b = true
      · rw [if_pos hab] at h
        obtain ⟨i, ha, hb, hne⟩ := ih.mp h
        exact ⟨i + 1, by simpa using ha, by simpa using hb, by simpa using hne⟩
      · exact ⟨0, by simp, by simp, by simpa [Double.ne] using hab⟩
    · rintro ⟨i, ha, hb, hne⟩
      simp only [std_equal]
      cases i with
      | zero =>
        have : Double.eq a b = false := by simpa [Double.ne] using hne
        simp [this]
      | succ j =>
        have hj : std_equal as bs = false :=
          ih.mpr ⟨j, by simpa using ha, by simpa using hb, by simpa using hne⟩
        split
        · exact hj
        · rfl

theorem vecNe_iff_differs (x y : List Double) : vecNe x y = true ↔ differs x y := by
  unfold vecNe vecEq differs
  by_cases hl : x.length = y.length
  · have h := std_equal_false_iff x y hl
    simp only [hl, beq_self_eq_true, Bool.true_and, Bool.not_eq_true', ne_eq, not_true_eq_false,
      false_or]
    rw [h]
    simp [hl]
  · simp [hl]

/-! ## Rounding to 6 decimal digits and to binary64 -/

/-- The rounded quotient is within one half of `n / d`. -/
theorem roundHalfEven_near (n d : Nat) (hd : 0 < d) :
    2 * roundHalfEven n d * d ≤ 2 * n + d ∧ 2 * n ≤ 2 * roundHalfEven n d * d + d := by
  have h1 : n / d * d + n % d = n := by
    rw [Nat.mul_comm]
    exact Nat.div_add_mod n d
  have h2 := Nat.mod_lt n hd
  have e1 : 2 * (n / d) * d = 2 * (n / d * d) := by ring
  have e2 : 2 * (n / d + 1) * d = 2 * (n / d * d) + 2 * d := by ring
  simp only [roundHalfEven]
  split_ifs <;> constructor <;> first | (rw [e1]; omega) | (rw [e2]; omega)

/-- With fuel `n` the search brackets `n` between consecutive powers. -/
theorem ilog_spec (base : Nat) (hb : 2 ≤ base) : ∀ (fuel n : Nat), 1 ≤ n → n ≤ fuel →
    base ^ ilog base fuel n ≤ n ∧ n < base ^ (ilog base fuel n + 1)
  | 0, n, h1, h2 => by omega
  | fuel + 1, n, h1, h2 => by
    simp only [ilog]
    split
    · rename_i hlt
      simp only [pow_zero, zero_add, pow_one]
      exact ⟨h1, hlt⟩
    · rename_i hge
      have hge2 : base ≤ n := Nat.le_of_not_lt hge
      have hq1 : 1 ≤ n / base := (Nat.one_le_div_iff (by omega)).mpr hge2
      have hq2 : n / base ≤ fuel := by
        have : n / base < n := Nat.div_lt_self (by omega) (by omega)
        omega
      obtain ⟨ih1, ih2⟩ := ilog_spec base hb fuel (n / base) hq1 hq2
      constructor
      · calc base ^ (ilog base fuel (n / base) + 1)
            = base ^ ilog base fuel (n / base) * base := pow_succ _ _
          _ ≤ n / base * base := Nat.mul_le_mul_right _ ih1
          _ ≤ n := Nat.div_mul_le_self n base
      · have := (Nat.div_lt_iff_lt_mul (by omega : 0 < base)).mp ih2
        calc n < base ^ (ilog base fuel (n / base) + 1) * base := this
          _ = base ^ (ilog base fuel (n / base) + 1 + 1) := (pow_succ _ _).symm

/-- With fuel `b` the search finds the least power that lifts `a` to `b`. -/
theorem nlog_spec (base : Nat) (hb : 2 ≤ base) : ∀ (fuel a b : Nat), 0 < a → a < b →
    b ≤ a + fuel → 1 ≤ nlog base fuel a b ∧
      b ≤ a * base ^ nlog base fuel a b ∧ a * base ^ (nlog base fuel a b - 1) < b
  | 0, a, b, h0, h1, h2 => by omega
  | fuel + 1, a, b, h0, h1, h2 => by
    simp only [nlog]
    split
    · rename_i hle
      simp only [pow_one, le_refl, Nat.sub_self, pow_zero, mul_one, true_and]
      exact ⟨hle, h1⟩
    · rename_i hgt
      have hlt : a * base < b := Nat.lt_of_not_le hgt
      have hfu : b ≤ a * base + fuel := by nlinarith
      obtain ⟨i1, i2, i3⟩ := nlog_spec base hb fuel (a * base) b (by positivity) hlt hfu
      refine ⟨by omega, ?_, ?_⟩
      · calc b ≤ a * base * base ^ nlog base fuel (a * base) b := i2
          _ = a * base ^ (nlog base fuel (a * base) b + 1) := by rw [pow_succ]; ring
      · have e : nlog base fuel (a * base) b + 1 - 1 = (nlog base fuel (a * base) b - 1) + 1 := by
          omega
        rw [e]
        calc a * base ^ (nlog base fuel (a * base) b - 1 + 1)
            = a * base * base ^ (nlog base fuel (a * base) b - 1) := by rw [pow_succ]; ring
          _ < b := i3
theorem ilog_le (base : Nat) : ∀ (fuel n k : Nat), n < base ^ (k + 1) → ilog base fuel n ≤ k
  | 0, _, _, _ => Nat.zero_le _
  | fuel + 1, n, k, h => by
    simp only [ilog]
    split
    · exact Nat.zero_le _
    · rename_i hn
      have hn2 : base ≤ n := Nat.le_of_not_lt hn
      cases k with
      | zero => simp at h; omega
      | succ k =>
        have hb : 0 < base := by
          rcases Nat.eq_zero_or_pos base with h0 | h0
          · subst h0; simp at h
          · exact h0
        have hd : n / base < base ^ (k + 1) := by
          apply Nat.div_lt_of_lt_mul
          rw [pow_succ] at h
          rw [Nat.mul_comm]
          exact h
        have := ilog_le base fuel (n / base) k hd
        omega

theorem roundHalfEven_one (n : Nat) : roundHalfEven n 1 = n := by
  simp [roundHalfEven, Nat.mod_one]

theorem roundToQuantum_int (a base : Nat) (hb : 0 < base) (s : Int) (hs : s ≤ 0) :
    (roundToQuantum a 1 base s).1 = a * (roundToQuantum a 1 base s).2 ∧
      0 < (roundToQuantum a 1 base s).2 := by
  cases s with
  | ofNat k =>
    have hk : k = 0 := by
      have : (k : Int) ≤ 0 := hs
      omega
    subst hk
    simp [roundToQuantum, roundHalfEven_one]
  | negSucc k =>
    simp only [roundToQuantum, roundHalfEven_one]
    exact ⟨trivial, by positivity⟩

theorem mkRat_mul_self (a d : Nat) (hd : 0 < d) : mkRat (Int.ofNat (a * d)) d = (a : ℚ) := by
  rw [Rat.mkRat_eq_div]
  have : (d : ℚ) ≠ 0 := by exact_mod_cast Nat.pos_iff_ne_zero.mp hd
  simp only [Int.ofNat_eq_coe, Nat.cast_mul, Int.cast_mul, Int.cast_natCast]
  field_simp

theorem round6_natCast (n : Nat) (h : n < 10 ^ 6) : round6 (n : ℚ) = (n : ℚ) := by
  cases n with
  | zero => simp [round6]
  | succ a =>
    have he : ilog 10 (a + 1) ((a + 1) / 1) ≤ 5 := ilog_le 10 _ _ 5 (by simpa using h)
    have hs : floorLog 10 (a + 1) 1 - 5 ≤ 0 := by
      have h1 : 1 ≤ a + 1 := by omega
      simp only [floorLog, h1, if_true, Int.ofNat_eq_coe]
      omega
    obtain ⟨h1, h2⟩ := roundToQuantum_int (a + 1) 10 (by decide) _ hs
    have : round6 ((a + 1 : ℕ) : ℚ)
        = mkRat (Int.ofNat (roundToQuantum (a + 1) 1 10 (floorLog 10 (a + 1) 1 - 5)).1)
            (roundToQuantum (a + 1) 1 10 (floorLog 10 (a + 1) 1 - 5)).2 := rfl
    rw [this, h1, mkRat_mul_self _ _ h2]


theorem mkRat_neg_mul_self (a d : Nat) (hd : 0 < d) :
    mkRat (Int.negOfNat (a * d)) d = -(a : ℚ) := by
  rw [Rat.mkRat_eq_div]
  have : (d : ℚ) ≠ 0 := by exact_mod_cast Nat.pos_iff_ne_zero.mp hd
  rw [Int.negOfNat_eq]
  simp only [Int.ofNat_eq_coe, Nat.cast_mul, Int.cast_neg, Int.cast_mul, Int.cast_natCast]
  field_simp

theorem round6_intCast (m : Int) (h : m.natAbs < 10 ^ 6) : round6 (m : ℚ) = (m : ℚ) := by
  cases m with
  | ofNat n =>
    have := round6_natCast n (by simpa using h)
    simpa using this
  | negSucc a =>
    have h6 : a + 1 < 10 ^ 6 := by simpa [Int.natAbs] using h
    have he : ilog 10 (a + 1) ((a + 1) / 1) ≤ 5 := ilog_le 10 _ _ 5 (by simpa using h6)
    have hs : floorLog 10 (a + 1) 1 - 5 ≤ 0 := by
      have h1 : 1 ≤ a + 1 := by omega
      simp only [floorLog, h1, if_true, Int.ofNat_eq_coe]
      omega
    obtain ⟨h1, h2⟩ := roundToQuantum_int (a + 1) 10 (by decide) _ hs
    have : round6 ((Int.negSucc a : Int) : ℚ)
        = mkRat (Int.negOfNat (roundToQuantum (a + 1) 1 10 (floorLog 10 (a + 1) 1 - 5)).1)
            (roundToQuantum (a + 1) 1 10 (floorLog 10 (a + 1) 1 - 5)).2 := rfl
    rw [this, h1, mkRat_neg_mul_self _ _ h2]
    simp [Int.negSucc_eq]

theorem Double.round_natCast_lt (n : Nat) (h : n < 2 ^ 53) :
    Double.round (n : ℚ) = Double.num (n : ℚ) := by
  cases n with
  | zero => simp [Double.round]
  | succ a =>
    have he : ilog 2 (a + 1) ((a + 1) / 1) ≤ 52 := ilog_le 2 _ _ 52 (by simpa using h)
    have hs : max (floorLog 2 (a + 1) 1) (-1022) - 52 ≤ 0 := by
      have h1 : 1 ≤ a + 1 := by omega
      simp only [floorLog, h1, if_true, Int.ofNat_eq_coe]
      omega
    obtain ⟨h1, h2⟩ := roundToQuantum_int (a + 1) 2 (by decide) _ hs
    have hr : Double.round ((a + 1 : ℕ) : ℚ)
        = Double.ofMagnitude false
            (roundToQuantum (a + 1) 1 2 (max (floorLog 2 (a + 1) 1) (-1022) - 52)) := rfl
    rw [hr]
    unfold Double.ofMagnitude
    have hno : ¬ ((2 ^ 256) ^ 4 * (roundToQuantum (a + 1) 1 2
          (max (floorLog 2 (a + 1) 1) (-1022) - 52)).2
        ≤ (roundToQuantum (a + 1) 1 2 (max (floorLog 2 (a + 1) 1) (-1022) - 52)).1) := by
      rw [h1]
      intro hle
      have h3 := Nat.le_of_mul_le_mul_right hle h2
      have h4 : (2 : Nat) ^ 53 ≤ (2 ^ 256) ^ 4 :=
        Nat.le_trans (Nat.pow_le_pow_right (by decide) (by decide))
          (Nat.le_self_pow (by decide) _)
      omega
    rw [if_neg hno]
    simp only [Bool.false_eq_true, if_false]
    rw [h1, mkRat_mul_self _ _ h2]

theorem Double.round_two53 :
    Double.round ((2 ^ 53 : ℕ) : ℚ) = Double.num ((2 ^ 53 : ℕ) : ℚ) := by decide

theorem Double.round_two53_succ :
    Double.round ((2 ^ 53 + 1 : ℕ) : ℚ) = Double.num ((2 ^ 53 : ℕ) : ℚ) := by decide

theorem Double.round_natCast (n : Nat) (h : n ≤ 2 ^ 53) :
    Double.round (n : ℚ) = Double.num (n : ℚ) := by
  rcases Nat.lt_or_ge n (2 ^ 53) with h1 | h1
  · exact Double.round_natCast_lt n h1
  · have : n = 2 ^ 53 := Nat.le_antisymm h h1
    subst this
    exact Double.round_two53

theorem Double.add_one_natCast (c : Nat) :
    Double.add (Double.num (min c (2 ^ 53) : ℕ)) (Double.num 1)
      = Double.num (min (c + 1) (2 ^ 53) : ℕ) := by
  have hcast : ((min c (2 ^ 53) : ℕ) : ℚ) + 1 = ((min c (2 ^ 53) + 1 : ℕ) : ℚ) := by push_cast; rfl
  simp only [Double.add]
  rw [hcast]
  rcases Nat.lt_or_ge c (2 ^ 53) with h | h
  · rw [Nat.min_eq_left (Nat.le_of_lt h), Nat.min_eq_left (by omega)]
    exact Double.round_natCast _ (by omega)
  · rw [Nat.min_eq_right h, Nat.min_eq_right (by omega)]
    exact Double.round_two53_succ

/-- Sample values: 1/3 is written 0.333333, 123456.5 is written 123456 and
123457.5 is written 123458 (ties to even), 0.00001234565 is written
1.23456e-05, and 2^53 + 1 is not a binary64 value (it rounds to 2^53). -/
theorem rounding_examples :
    round6 (mkRat 1 3) = mkRat 333333 1000000 ∧
      round6 (mkRat 1234565 10) = 123456 ∧
      round6 (mkRat 1234575 10) = 123458 ∧
      round6 (mkRat 1234565 100000000000) = mkRat 123456 10000000000 ∧
      Double.round 9007199254740993 = Double.num 9007199254740992 ∧
      Double.round (mkRat 1 10)
        = Double.num (mkRat 3602879701896397 36028797018963968) := by
  refine ⟨by decide, by decide, by decide, by decide, by decide, by decide⟩

theorem Double.written_intCast (m : Int) (h : m.natAbs < 10 ^ 6) :
    Double.written (Double.num (m : ℚ)) = Double.num (m : ℚ) := by
  simp only [Double.written, round6_intCast m h]

theorem Double.written_natCast (n : Nat) (h : n < 10 ^ 6) :
    Double.written (Double.num (n : ℚ)) = Double.num (n : ℚ) := by
  simp only [Double.written, round6_natCast n h]

/-! ## The path file written by `write_path` -/

theorem z_val_eq : z_val = Double.num (1 / 2) := by
  unfold z_val
  congr 1
  rw [Rat.mkRat_eq_div]
  norm_num

theorem z_val_written : z_val.written = Double.num (1 / 2) := by
  have h : z_val.written = z_val := by decide
  rw [h, z_val_eq]

theorem num_cols_written : num_cols.written = Double.num 3 := by decide

theorem ofNat_of_le_INT_MAX (n : Nat) (h : n ≤ INT_MAX) : Double.ofNat n = Double.num (n : ℚ) :=
  Double.round_natCast n (Nat.le_trans h (by decide))

/-- The data lines for the points of `x` paired with `y`. -/
theorem write_rows_eq (x y : List Double) (hxy : x.length ≤ y.length)
    (hn : x.length ≤ INT_MAX) :
    ∀ (todo pt_cnt : Nat), pt_cnt + todo = x.length →
      write_rows x y pt_cnt todo
        = some (((x.zip y).drop pt_cnt).map
            (fun p => [p.1.written, p.2.written, Double.num (1 / 2)]))
  | 0, pt_cnt, h => by
    have hlen : (x.zip y).length ≤ pt_cnt := by simp [List.length_zip]; omega
    simp [write_rows, List.drop_eq_nil_of_le hlen]
  | todo + 1, pt_cnt, h => by
    have hx : pt_cnt < x.length := by omega
    have hy : pt_cnt < y.length := by omega
    have hz : pt_cnt < (x.zip y).length := by simp [List.length_zip]; omega
    have hi : ¬ INT_MAX < pt_cnt + 1 := by omega
    have ih := write_rows_eq x y hxy hn todo (pt_cnt + 1) (by omega)
    have hd : (x.zip y).drop pt_cnt
        = (x.get ⟨pt_cnt, hx⟩, y.get ⟨pt_cnt, hy⟩) :: (x.zip y).drop (pt_cnt + 1) := by
      rw [List.drop_eq_getElem_cons hz]
      simp
    simp only [write_rows, List.getElem?_eq_getElem hx, List.getElem?_eq_getElem hy, ih, hd,
      List.map_cons, List.get_eq_getElem, if_neg hi, z_val_written]

theorem write_path_eq (x y : List Double) (hxy : x.length ≤ y.length)
    (hn : x.length ≤ INT_MAX) :
    write_path x y
      = some ([(Double.num (x.length : ℚ)).written, Double.num 3]
          :: (x.zip y).map (fun p => [p.1.written, p.2.written, Double.num (1 / 2)])) := by
  have h := write_rows_eq x y hxy hn x.length 0 (by omega)
  simp only [write_path, h, List.drop_zero, ofNat_of_le_INT_MAX _ hn, num_cols_written]

/-- Past `INT_MAX` iterations the increment of the `int` counter overflows. -/
theorem write_rows_overflow (x y : List Double) :
    ∀ (todo pt_cnt : Nat), pt_cnt ≤ INT_MAX → INT_MAX < pt_cnt + todo →
      write_rows x y pt_cnt todo = none
  | 0, pt_cnt, h1, h2 => by omega
  | todo + 1, pt_cnt, h1, h2 => by
    simp only [write_rows]
    split
    · split
      · rfl
      · rename_i hlt
        rw [write_rows_overflow x y todo (pt_cnt + 1) (by omega) (by omega)]
    · rfl

theorem write_path_overflow (x y : List Double) (h : INT_MAX < x.length) :
    write_path x y = none := by
  simp only [write_path, write_rows_overflow x y x.length 0 (Nat.zero_le _) (by omega)]

/-! ## The trajectory swap -/

/-- The sample trajectories are the ones the generator publishes in its first
two iterations. -/
theorem sample_inputs_published : TrajGen.published 0 = P1 ∧ TrajGen.published 1 = P2 := by
  constructor
  · decide
  · have h : Double.round 1 = Double.num 1 := by decide
    simp [TrajGen.published, TrajGen.after, TrajGen.iterate, TrajGen.init, Double.add, P2, h]

/-- C1 (the code at the failing input). Startup on P1 = ([0,50],[0,0]), one
iteration polling P1, then the iteration that polls P2 = ([0,50],[0,1]): the
poll detects the change and builds a follower inside its block, yet the
throttle read as the command is the throttle 1 left by the startup follower
(a fresh follower has 0), the target marker is the last knot (50, 0, 0.5) of
P1, and the follower that is advanced still tracks the curve of P1 and carries
the integral error 7 accumulated before the swap. -/
theorem C1_swap_keeps_startup_follower :
    ∃ it1 it2 : Iteration, sampleSwap = some (it1, it2) ∧
      it2.changed = true ∧ it2.rebuilt.isSome = true ∧
      it2.outputs.map (fun o => o.throttle_input) = some (Double.num 1) ∧
      it2.outputs.map (fun o => o.pT)
        = some { x := Double.num 50, y := Double.num 0, z := z_val } ∧
      it2.state.rig.driver_follower = sampleStep it1.state.rig.driver_follower ∧
      it2.state.rig.driver_follower.m_steeringPID.m_path.points
        = [{ x := Double.num 0, y := Double.num 0, z := z_val },
           { x := Double.num 50, y := Double.num 0, z := z_val }] ∧
      it2.state.rig.driver_follower.m_steeringPID.m_erri = Double.num 7 ∧
      it2.state.x_traj_prev = P2.1 ∧ it2.state.y_traj_prev = P2.2 := by
  refine ⟨_, _, rfl, ?_⟩
  decide

/-- C2 (the code at the failing input). After startup on P1 = ([0,50],[0,0])
the poll of P2 = ([0,50],[0,1]) rewrites the path file with the knots of P2,
but the follower it constructs is handed the curve read at startup, with the
knots (0,0,0.5), (50,0,0.5) of P1. -/
theorem C2_rebuilt_follower_gets_startup_path :
    ∃ (s0 : MainState) (p : Polled) (f : ChPathFollowerDriver),
      sampleStart = some s0 ∧ poll sampleEnv s0 P2.1 P2.2 = some p ∧
      p.changed = true ∧ p.rebuilt = some f ∧
      (ChBezierCurve.read p.state.path_file).points
        = [{ x := Double.num 0, y := Double.num 0, z := z_val },
           { x := Double.num 50, y := Double.num 1, z := z_val }] ∧
      f.m_steeringPID.m_path = s0.path ∧
      f.m_steeringPID.m_path.points
        = [{ x := Double.num 0, y := Double.num 0, z := z_val },
           { x := Double.num 50, y := Double.num 0, z := z_val }] ∧
      f.m_steeringPID.m_path ≠ ChBezierCurve.read p.state.path_file := by
  refine ⟨_, _, _, rfl, rfl, ?_, rfl, ?_⟩
  · decide
  · decide

/-- The trajectory check assigns neither the curve `path` nor the drivers and
selector of the enclosing scope, and hands `path` to the follower it builds. -/
theorem poll_frame (env : Env) (s : MainState) (x y : List Double) (p : Polled)
    (h : poll env s x y = some p) :
    p.state.path = s.path ∧ p.state.rig = s.rig ∧
      ∀ f, p.rebuilt = some f → f.m_steeringPID.m_path = s.path := by
  unfold poll at h
  split at h
  · split at h
    · simp at h
    · simp only [Option.some.injEq] at h
      subst h
      refine ⟨rfl, rfl, ?_⟩
      intro f hf
      simp only [Option.some.injEq] at hf
      subst hf
      rfl
  · simp only [Option.some.injEq] at h
    subst h
    exact ⟨rfl, rfl, by simp⟩

/-- Whatever is polled, the follower driver that an iteration reads and advances
is the one `main` declared before the loop (as the events left it): after the
iteration it is that driver, stepped once unless the loop was left, and the
curve `path` is the one read at startup. -/
theorem loop_body_frame (env : Env) (s : MainState) (x y : List Double) (it : Iteration)
    (h : loop_body env s x y = some it) :
    ∃ (s1 : MainState) (calls : List Call), dispatch env s = some (s1, calls) ∧
      it.state.path = s.path ∧
      (it.state.rig.driver_follower = s1.rig.driver_follower ∨
        it.state.rig.driver_follower = env.follower_step s1.rig.driver_follower) ∧
      ∀ o, it.outputs = some o →
        o.pS = s1.rig.driver_follower.m_steeringPID.m_sentinel ∧
        o.pT = s1.rig.driver_follower.m_steeringPID.m_target ∧
        (o.throttle_input, o.steering_input, o.braking_input) = s1.rig.command := by
  unfold loop_body at h
  cases hd : dispatch env s with
  | none => simp [hd] at h
  | some sc =>
    obtain ⟨s1, calls⟩ := sc
    have hpath : s1.path = s.path := by
      unfold dispatch at hd
      split at hd
      · simp only [Option.some.injEq, Prod.mk.injEq] at hd
        rw [← hd.1]
      · split at hd
        · simp only [Option.some.injEq, Prod.mk.injEq] at hd
          rw [← hd.1]
        · simp at hd
    simp only [hd] at h
    cases hp : poll env s1 x y with
    | none => simp [hp] at h
    | some p =>
      obtain ⟨hp1, hp2, _⟩ := poll_frame env s1 x y p hp
      simp only [hp] at h
      refine ⟨s1, calls, rfl, ?_⟩
      split at h
      · simp only [Option.some.injEq] at h
        subst h
        refine ⟨by rw [hp1, hpath], Or.inl (by rw [hp2]), ?_⟩
        intro o ho
        simp at ho
      · simp only [Option.some.injEq] at h
        subst h
        refine ⟨by rw [hp1, hpath], Or.inr (by rw [hp2]), ?_⟩
        intro o ho
        simp only [Option.some.injEq] at ho
        subst ho
        simp [hp2]

theorem trajChanged_iff (s : MainState) (x y : List Double) :
    trajChanged s x y = true ↔ (differs x s.x_traj_prev ∨ differs y s.y_traj_prev) := by
  simp only [trajChanged, Bool.or_eq_true, vecNe_iff_differs]

theorem arraysDiffer_iff_ne (a b : List Double) : arraysDiffer a b ↔ a ≠ b := by
  constructor
  · rintro (h | ⟨i, ha, hb, h⟩) hab
    · exact h (by rw [hab])
    · subst hab
      exact h rfl
  · intro hab
    by_contra hnd
    apply hab
    unfold arraysDiffer at hnd
    simp only [not_or, not_not, not_exists] at hnd
    exact List.ext_get hnd.1 (fun i ha hb => hnd.2 i ha hb)

theorem std_equal_nan : ∀ (x y : List Double), Double.nan ∈ x → std_equal x y = false
  | [], _, h => by simp at h
  | _ :: _, [], _ => rfl
  | a :: as, b :: bs, h => by
    simp only [std_equal]
    split
    · rename_i hab
      have ha : a ≠ Double.nan := by
        intro hn
        subst hn
        simp [Double.eq] at hab
      have hmem : Double.nan ∈ as := by
        rcases List.mem_cons.mp h with h1 | h1
        · exact absurd h1.symm ha
        · exact h1
      exact std_equal_nan as bs hmem
    · rfl

/-- The vector comparison `!=` holds exactly when the arrays are not the same
sequence of values or the left one holds a NaN. -/
theorem vecNe_iff (x y : List Double) : vecNe x y = true ↔ (x ≠ y ∨ Double.nan ∈ x) := by
  constructor
  · intro h
    by_cases hxy : x = y
    · right
      by_contra hn
      subst hxy
      have := vecNe_self (x := x) (fun d hd hdn => hn (hdn ▸ hd))
      rw [this] at h
      exact Bool.false_ne_true h
    · exact Or.inl hxy
  · rintro (h | h)
    · by_contra hv
      apply h
      apply vecEq_sound
      simpa [vecNe] using hv
    · simp [vecNe, vecEq, std_equal_nan x y h]

/-- The branch condition in the words of the claim, with the NaN case. -/
theorem trajChanged_iff_arraysDiffer (s : MainState) (x y : List Double) :
    trajChanged s x y = true ↔
      (arraysDiffer x s.x_traj_prev ∨ arraysDiffer y s.y_traj_prev ∨
        Double.nan ∈ x ∨ Double.nan ∈ y) := by
  simp only [trajChanged, Bool.or_eq_true, vecNe_iff, arraysDiffer_iff_ne]
  tauto

/-- C3 (counterexample). After startup on P1 the pair x = [NaN, 50], y = [0, 0]
is polled, so that the snapshot holds this pair. When the same pair is polled
again the branch condition of the trajectory check is true, although neither
polled array differs from its snapshot array in length or at any index. -/
theorem C3_nan_pair_detected_changed :
    ∃ (s0 : MainState) (p1 : Polled), sampleStart = some s0 ∧
      poll sampleEnv s0 PNaN.1 PNaN.2 = some p1 ∧
      trajChanged p1.state PNaN.1 PNaN.2 = true ∧
      ¬ arraysDiffer PNaN.1 p1.state.x_traj_prev ∧
      ¬ arraysDiffer PNaN.2 p1.state.y_traj_prev := by
  refine ⟨_, _, rfl, rfl, by decide, ?_, ?_⟩
  · rw [arraysDiffer_iff_ne]
    exact fun h => h rfl
  · rw [arraysDiffer_iff_ne]
    exact fun h => h rfl

/-- C3 (amended). The branch of the trajectory check is taken exactly when the
polled x array differs from the snapshot x array or the polled y array differs
from the snapshot y array (lengths differ, or the values at some common index
differ), or a polled array holds a NaN; for polled arrays without NaN it is
taken exactly when one of them differs from its snapshot array. When the
branch is taken the iteration rewrites the path file from the polled arrays,
builds a follower and updates the snapshot; when it is not, nothing is
written, built or assigned. -/
theorem C3_change_detection (env : Env) (s : MainState) (x y : List Double) :
    (trajChanged s x y = true ↔
      (arraysDiffer x s.x_traj_prev ∨ arraysDiffer y s.y_traj_prev ∨
        Double.nan ∈ x ∨ Double.nan ∈ y)) ∧
    ((∀ d ∈ x, d ≠ Double.nan) → (∀ d ∈ y, d ≠ Double.nan) →
      (trajChanged s x y = true ↔
        (arraysDiffer x s.x_traj_prev ∨ arraysDiffer y s.y_traj_prev))) ∧
    (trajChanged s x y = true →
      poll env s x y
        = (write_path x y).map (fun file =>
            { state :=
                { x_traj_prev := x, y_traj_prev := y, path_file := file, path := s.path,
                  rig := s.rig, receiver := Receiver.block_selector },
              changed := true,
              rebuilt :=
                some (ChPathFollowerDriver.create s.path target_speed (env.marks s.path)) })) ∧
    (trajChanged s x y = false →
      poll env s x y = some { state := s, changed := false, rebuilt := none }) := by
  refine ⟨trajChanged_iff_arraysDiffer s x y, ?_, ?_, ?_⟩
  · intro hx hy
    rw [trajChanged_iff_arraysDiffer]
    constructor
    · rintro (h | h | h | h)
      · exact Or.inl h
      · exact Or.inr h
      · exact absurd rfl (hx _ h)
      · exact absurd rfl (hy _ h)
    · rintro (h | h)
      · exact Or.inl h
      · exact Or.inr (Or.inl h)
  · intro hc
    unfold poll
    rw [if_pos hc]
    cases write_path x y <;> rfl
  · intro hc
    unfold poll
    simp [hc]

/-- C3 (amended), on the sample run: after startup on P1 the poll of P2 takes
the branch (the y arrays differ at index 1) and the poll of P1 does not. -/
theorem C3_change_detection_witness :
    trajChanged sampleState P2.1 P2.2 = true ∧
    (arraysDiffer P2.1 sampleState.x_traj_prev ∨ arraysDiffer P2.2 sampleState.y_traj_prev) ∧
    (poll sampleEnv sampleState P2.1 P2.2).isSome = true ∧
    trajChanged sampleState P1.1 P1.2 = false ∧
    poll sampleEnv sampleState P1.1 P1.2
      = some { state := sampleState, changed := false, rebuilt := none } := by
  have h2 := C3_change_detection sampleEnv sampleState P2.1 P2.2
  have h1 := C3_change_detection sampleEnv sampleState P1.1 P1.2
  have hc : trajChanged sampleState P2.1 P2.2 = true := by decide
  have hn : trajChanged sampleState P1.1 P1.2 = false := by decide
  refine ⟨hc, (h2.2.1 (by decide) (by decide)).mp hc, ?_, hn, h1.2.2.2 hn⟩
  rw [h2.2.2.1 hc]
  decide

/-- C4 (counterexample). After startup on P1 = ([0,50],[0,0]) the poll of the
mismatched pair x = [7], y = [3,4] is accepted: it reports a change, the path
file is overwritten with one row (7, 3, 0.5) and the snapshot becomes the
mismatched pair; the single-point pair x = [5], y = [5] is accepted likewise. -/
theorem C4_invalid_swap_accepted :
    ∃ (s0 : MainState) (p q : Polled), sampleStart = some s0 ∧
      poll sampleEnv s0 [Double.num 7] [Double.num 3, Double.num 4] = some p ∧
      p.changed = true ∧
      p.state.path_file = [[Double.num 1, Double.num 3], [Double.num 7, Double.num 3, z_val]] ∧
      p.state.path_file ≠ s0.path_file ∧
      p.state.x_traj_prev = [Double.num 7] ∧
      p.state.y_traj_prev = [Double.num 3, Double.num 4] ∧
      poll sampleEnv s0 [Double.num 5] [Double.num 5] = some q ∧
      q.changed = true ∧
      q.state.path_file = [[Double.num 1, Double.num 3], [Double.num 5, Double.num 5, z_val]] ∧
      q.state.path_file ≠ s0.path_file ∧
      q.state.x_traj_prev = [Double.num 5] ∧ q.state.y_traj_prev = [Double.num 5] := by
  refine ⟨_, _, _, rfl, rfl, ?_, ?_, ?_, rfl, rfl, rfl, ?_, ?_, ?_, rfl, rfl⟩ <;> decide

/-- C4 (amended). The trajectory check validates nothing: whenever the polled
pair differs from the snapshot, the y array has at least as many elements as
the x array (equal lengths or not, fewer than two points or not) and the x
array has at most `INT_MAX` elements, the poll succeeds and reports a change,
the path file is rewritten from the polled arrays (header with the size of x
and 3, then one row x[i], y[i], 0.5 per element of x, each number as the
stream writes it, with 6 significant digits) and the snapshot becomes the
polled pair. -/
theorem C4_swap_without_validation (env : Env) (s : MainState) (x y : List Double)
    (hd : arraysDiffer x s.x_traj_prev ∨ arraysDiffer y s.y_traj_prev)
    (hxy : x.length ≤ y.length) (hn : x.length ≤ INT_MAX) :
    ∃ p : Polled, poll env s x y = some p ∧ p.changed = true ∧
      p.state.path_file
        = [(Double.num (x.length : ℚ)).written, Double.num 3]
            :: (x.zip y).map (fun r => [r.1.written, r.2.written, Double.num (1 / 2)]) ∧
      p.state.x_traj_prev = x ∧ p.state.y_traj_prev = y := by
  have hc : trajChanged s x y = true := by
    rw [trajChanged_iff_arraysDiffer]
    rcases hd with h | h
    · exact Or.inl h
    · exact Or.inr (Or.inl h)
  refine
    ⟨{ state :=
          { x_traj_prev := x, y_traj_prev := y,
            path_file :=
              [(Double.num (x.length : ℚ)).written, Double.num 3]
                :: (x.zip y).map (fun r => [r.1.written, r.2.written, Double.num (1 / 2)]),
            path := s.path, rig := s.rig, receiver := Receiver.block_selector },
        changed := true,
        rebuilt := some (ChPathFollowerDriver.create s.path target_speed (env.marks s.path)) },
      ?_, rfl, rfl, rfl, rfl⟩
  unfold poll
  rw [if_pos hc, write_path_eq x y hxy hn]

/-- C4 (amended), on the sample run: after startup on P1 the mismatched pair
x = [7], y = [3, 4] is polled. -/
theorem C4_swap_without_validation_witness :
    ∃ p : Polled,
      poll sampleEnv sampleState [Double.num 7] [Double.num 3, Double.num 4] = some p ∧
        p.changed = true ∧
        p.state.path_file
          = [(Double.num (([Double.num 7] : List Double).length : ℚ)).written, Double.num 3]
              :: ([Double.num 7].zip [Double.num 3, Double.num 4]).map
                  (fun r => [r.1.written, r.2.written, Double.num (1 / 2)]) ∧
        p.state.x_traj_prev = [Double.num 7] ∧
        p.state.y_traj_prev = [Double.num 3, Double.num 4] :=
  C4_swap_without_validation sampleEnv sampleState [Double.num 7] [Double.num 3, Double.num 4]
    (Or.inl (Or.inl (by decide))) (by decide) (by decide)

/-! ## The trajectory snapshot -/

theorem startup_snapshot (marks : ChBezierCurve → ChVector × ChVector) (x y : List Double)
    (s0 : MainState) (h : startup marks x y = some s0) :
    s0.x_traj_prev = x ∧ s0.y_traj_prev = y := by
  unfold startup at h
  split at h
  · simp at h
  · simp only [Option.some.injEq] at h
    subst h
    exact ⟨rfl, rfl⟩

theorem poll_snapshot (env : Env) (s : MainState) (x y : List Double) (p : Polled)
    (h : poll env s x y = some p) :
    p.state.x_traj_prev = x ∧ p.state.y_traj_prev = y := by
  unfold poll at h
  split at h
  · split at h
    · simp at h
    · simp only [Option.some.injEq] at h
      subst h
      exact ⟨rfl, rfl⟩
  · rename_i hc
    simp only [Option.some.injEq] at h
    subst h
    simp only [trajChanged, Bool.or_eq_true, not_or, Bool.not_eq_true, vecNe,
      Bool.not_eq_false'] at hc
    exact ⟨(vecEq_sound hc.1).symm, (vecEq_sound hc.2).symm⟩

/-- C5 (counterexample). After startup on P1 the pair x = [NaN, 50], y = [0, 0]
is polled twice in a row: both polls report a change, because the NaN element
is unequal to itself. -/
theorem C5_same_pair_changes_twice :
    ∃ (s0 : MainState) (p1 p2 : Polled), sampleStart = some s0 ∧
      poll sampleEnv s0 PNaN.1 PNaN.2 = some p1 ∧
      poll sampleEnv p1.state PNaN.1 PNaN.2 = some p2 ∧
      p1.changed = true ∧ p1.state.x_traj_prev = PNaN.1 ∧ p1.state.y_traj_prev = PNaN.2 ∧
      p2.changed = true := by
  refine ⟨_, _, _, rfl, rfl, rfl, ?_, ?_, ?_, ?_⟩ <;> decide

/-- C5 (amended). At startup the snapshot is the first trajectory read; after
the trajectory check of any iteration the snapshot is the pair just polled;
and when no element of the polled arrays is NaN, polling the same pair again
reports no change and leaves everything as it is. -/
theorem C5_snapshot_tracking (marks : ChBezierCurve → ChVector × ChVector)
    (env env2 : Env) (s : MainState) (x y : List Double) :
    (∀ s0, startup marks x y = some s0 → s0.x_traj_prev = x ∧ s0.y_traj_prev = y) ∧
    (∀ p, poll env s x y = some p → p.state.x_traj_prev = x ∧ p.state.y_traj_prev = y) ∧
    ((∀ d ∈ x, d ≠ Double.nan) → (∀ d ∈ y, d ≠ Double.nan) →
      ∀ p, poll env s x y = some p →
        poll env2 p.state x y = some { state := p.state, changed := false, rebuilt := none }) := by
  refine ⟨fun s0 h => startup_snapshot marks x y s0 h,
    fun p h => poll_snapshot env s x y p h, ?_⟩
  intro hx hy p hp
  obtain ⟨h1, h2⟩ := poll_snapshot env s x y p hp
  have hc : trajChanged p.state x y = false := by
    simp only [trajChanged, h1, h2, vecNe_self hx, vecNe_self hy, Bool.or_self]
  unfold poll
  simp [hc]

/-- C5 (amended), on the sample run: startup on P1, poll of P2, poll of P2 again. -/
theorem C5_snapshot_tracking_witness :
    (∃ s0, sampleStart = some s0 ∧ s0.x_traj_prev = P1.1 ∧ s0.y_traj_prev = P1.2) ∧
    ∃ p : Polled, poll sampleEnv sampleState P2.1 P2.2 = some p ∧
      p.state.x_traj_prev = P2.1 ∧ p.state.y_traj_prev = P2.2 ∧
      poll sampleEnv p.state P2.1 P2.2
        = some { state := p.state, changed := false, rebuilt := none } := by
  have h1 := C5_snapshot_tracking sampleEnv.marks sampleEnv sampleEnv sampleState P1.1 P1.2
  have h2 := C5_snapshot_tracking sampleEnv.marks sampleEnv sampleEnv sampleState P2.1 P2.2
  have hs : (poll sampleEnv sampleState P2.1 P2.2).isSome = true := by decide
  obtain ⟨p, hp⟩ := Option.isSome_iff_exists.mp hs
  exact ⟨⟨sampleState, by decide, h1.1 sampleState (by decide)⟩,
    p, hp, (h2.2.1 p hp).1, (h2.2.1 p hp).2, h2.2.2 (by decide) (by decide) p hp⟩

/-! ## The layout of the path file -/

/-- C6 (counterexample). The row written for x = 1234567 carries 1234570 (the
text 1.23457e+06), the same row as for x = 1234570; the header written for
1234567 points carries 1234570 as the row count; and for 2^31 points the `int`
loop counter overflows before the file is complete. -/
theorem C6_six_digits_and_int_counter :
    write_path [Double.num 1234567] [Double.num 0]
        = some [[Double.num 1, Double.num 3],
            [Double.num 1234570, Double.num 0, Double.num (mkRat 1 2)]] ∧
      write_path [Double.num 1234570] [Double.num 0]
        = write_path [Double.num 1234567] [Double.num 0] ∧
      (∃ rows : PathFile,
        write_path (List.replicate 1234567 (Double.num 0))
            (List.replicate 1234567 (Double.num 0))
          = some ([Double.num 1234570, Double.num 3] :: rows)) ∧
      write_path (List.replicate (2 ^ 31) (Double.num 0))
          (List.replicate (2 ^ 31) (Double.num 0)) = none := by
  refine ⟨by decide, by decide, ?_, ?_⟩
  · have hlen : (List.replicate 1234567 (Double.num 0)).length = 1234567 :=
      List.length_replicate _ _
    have h : (Double.num ((1234567 : ℕ) : ℚ)).written = Double.num 1234570 := by decide
    refine ⟨((List.replicate 1234567 (Double.num 0)).zip
        (List.replicate 1234567 (Double.num 0))).map
          (fun p => [p.1.written, p.2.written, Double.num (1 / 2)]), ?_⟩
    rw [write_path_eq _ _ (le_refl _) (by rw [hlen]; decide), hlen, h]
  · apply write_path_overflow
    rw [List.length_replicate]
    decide

/-- C6 (amended). For arrays of equal length n, at most `INT_MAX`, the function
`write_path` reads only indices in range and writes n + 1 lines: the header
with n and 3, then for each i the row x[i], y[i], 0.5, in input order, every
number as the stream writes it, with 6 significant digits. The header carries
n itself when n is below 10^6, and a value that is an integer of magnitude
below 10^6 is written as itself. -/
theorem C6_path_file_layout (xs ys : List Double) (h : xs.length = ys.length)
    (hn : xs.length ≤ INT_MAX) :
    ∃ file : PathFile, write_path xs ys = some file ∧
      file.length = xs.length + 1 ∧
      file.head? = some [(Double.num (xs.length : ℚ)).written, Double.num 3] ∧
      (xs.length < 10 ^ 6 → file.head? = some [Double.num (xs.length : ℚ), Double.num 3]) ∧
      (∀ (i : Nat) (hx : i < xs.length) (hy : i < ys.length),
        file[i + 1]?
          = some [(xs.get ⟨i, hx⟩).written, (ys.get ⟨i, hy⟩).written, Double.num (1 / 2)]) ∧
      ∀ m : Int, m.natAbs < 10 ^ 6 → (Double.num (m : ℚ)).written = Double.num (m : ℚ) := by
  refine ⟨_, write_path_eq xs ys (le_of_eq h) hn, ?_, ?_, ?_, ?_, Double.written_intCast⟩
  · simp [List.length_zip, h]
  · simp
  · intro h6
    simp [Double.written_natCast _ h6]
  · intro i hx hy
    have hz : i < (xs.zip ys).length := by simp [List.length_zip]; omega
    simp [List.getElem?_eq_getElem, hz, hx, hy]

/-- C6 (amended), on the trajectory P2 = ([0,50],[0,1]). -/
theorem C6_path_file_layout_witness :
    ∃ file : PathFile, write_path P2.1 P2.2 = some file ∧
      file.length = P2.1.length + 1 ∧
      file.head? = some [Double.num (P2.1.length : ℚ), Double.num 3] ∧
      file[1]? = some [Double.num 0, Double.num 0, Double.num (1 / 2)] ∧
      file[2]? = some [Double.num 50, Double.num 1, Double.num (1 / 2)] := by
  obtain ⟨file, h1, h2, _, h4, h5, h6⟩ := C6_path_file_layout P2.1 P2.2 (by decide) (by decide)
  refine ⟨file, h1, h2, h4 (by decide), ?_, ?_⟩
  · have := h5 0 (by decide) (by decide)
    rw [this]
    have e0 := h6 0 (by decide)
    simp only [Int.cast_zero] at e0
    simp [P2, e0]
  · have := h5 1 (by decide) (by decide)
    rw [this]
    have e50 := h6 50 (by decide)
    have e1 := h6 1 (by decide)
    simp only [Int.cast_ofNat, Int.cast_one] at e50 e1
    simp [P2, e50, e1]

/-! ## The trajectory generator -/

theorem set_pair (l : List Double) (h : l.length = 2) (a b : Double) :
    (l.set 0 a).set 1 b = [a, b] := by
  match l, h with
  | [_, _], _ => rfl

theorem TrajGen.after_spec : ∀ k : Nat,
    (TrajGen.after k).x2.length = 2 ∧ (TrajGen.after k).y2.length = 2 ∧
      (TrajGen.after k).count = Double.num ((min k (2 ^ 53) : ℕ) : ℚ)
  | 0 => by simp [TrajGen.after, TrajGen.init]
  | k + 1 => by
    obtain ⟨hx, hy, hc⟩ := TrajGen.after_spec k
    refine ⟨?_, ?_, ?_⟩
    · simp [TrajGen.after, TrajGen.iterate, hx]
    · simp [TrajGen.after, TrajGen.iterate, hy]
    · simp only [TrajGen.after, TrajGen.iterate, hc]
      exact Double.add_one_natCast k

theorem TrajGen.published_eq (k : Nat) :
    TrajGen.published k
      = ([Double.num 0, Double.num 50],
          [Double.num 0, Double.num ((min k (2 ^ 53) : ℕ) : ℚ)]) := by
  obtain ⟨hx, hy, hc⟩ := TrajGen.after_spec k
  simp only [TrajGen.published, TrajGen.iterate, set_pair _ hx, set_pair _ hy, hc]

/-- C7 (counterexample). In iteration 2^53 + 1 the generator publishes the same
pair as in iteration 2^53: the counter, a double, stays at 2^53 when 1 is
added, so the y array is [0, 2^53] and not [0, 2^53 + 1]. -/
theorem C7_counter_stops_at_two53 :
    TrajGen.published (2 ^ 53 + 1) = TrajGen.published (2 ^ 53) ∧
      (TrajGen.published (2 ^ 53 + 1)).2
        = [Double.num 0, Double.num ((2 ^ 53 : ℕ) : ℚ)] ∧
      (TrajGen.published (2 ^ 53 + 1)).2
        ≠ [Double.num 0, Double.num ((2 ^ 53 + 1 : ℕ) : ℚ)] := by
  rw [TrajGen.published_eq, TrajGen.published_eq]
  refine ⟨by decide, by decide, by decide⟩

/-- C7 (amended). In every iteration k the generator publishes x = [0, 50] and
y = [0, c] with c the smaller of k and 2^53: both arrays have length 2 and
the waypoints (0, 0) and (50, c) are distinct (their x values are unequal as
doubles). Up to iteration 2^53 the y array is [0, k], and for k below 2^53 the
pair published in iteration k + 1 differs from the one published in iteration
k, which the comparison of the y arrays by `!=` detects. -/
theorem C7_generator_trajectories (k : Nat) :
    TrajGen.published k
        = ([Double.num 0, Double.num 50],
            [Double.num 0, Double.num ((min k (2 ^ 53) : ℕ) : ℚ)]) ∧
      (TrajGen.published k).1.length = 2 ∧ (TrajGen.published k).2.length = 2 ∧
      ((Double.num 0, Double.num 0) : Double × Double)
        ≠ (Double.num 50, Double.num ((min k (2 ^ 53) : ℕ) : ℚ)) ∧
      Double.ne (Double.num 0) (Double.num 50) = true ∧
      (k ≤ 2 ^ 53 →
        TrajGen.published k
          = ([Double.num 0, Double.num 50], [Double.num 0, Double.num (k : ℚ)])) ∧
      (k < 2 ^ 53 →
        TrajGen.published (k + 1) ≠ TrajGen.published k ∧
          vecNe (TrajGen.published (k + 1)).2 (TrajGen.published k).2 = true) := by
  rw [TrajGen.published_eq, TrajGen.published_eq]
  refine ⟨rfl, rfl, rfl, ?_, by decide, ?_, ?_⟩
  · intro h
    simp at h
  · intro hk
    rw [Nat.min_eq_left hk]
  · intro hk
    rw [Nat.min_eq_left (Nat.le_of_lt hk), Nat.min_eq_left (by omega : k + 1 ≤ 2 ^ 53)]
    constructor
    · intro h
      simp at h
    · simp [vecNe, vecEq, std_equal, Double.eq]

/-- C7 (amended), at iteration 3: the pair ([0, 50], [0, 3]) is published and
differs from the pair of iteration 4. -/
theorem C7_generator_trajectories_witness :
    TrajGen.published 3
        = ([Double.num 0, Double.num 50], [Double.num 0, Double.num ((3 : ℕ) : ℚ)]) ∧
      TrajGen.published (3 + 1) ≠ TrajGen.published 3 ∧
      vecNe (TrajGen.published (3 + 1)).2 (TrajGen.published 3).2 = true :=
  ⟨(C7_generator_trajectories 3).2.2.2.2.2.1 (by decide),
    (C7_generator_trajectories 3).2.2.2.2.2.2 (by decide)⟩

/-! ## The driver selector -/

theorem OnEvent_selector_cases (t : Double) (r : Rig) (e : SEvent) :
    (ChDriverSelector.OnEvent t r e).rig.selector = r.selector ∨
    (ChDriverSelector.OnEvent t r e).rig.selector
      = { m_using_gui := false, m_driver := DriverPtr.follower } ∨
    (ChDriverSelector.OnEvent t r e).rig.selector
      = { m_using_gui := true, m_driver := DriverPtr.gui } := by
  unfold ChDriverSelector.OnEvent
  split_ifs <;> simp

theorem handleAll_selector_inv : ∀ (es : List (Double × SEvent)) (r : Rig),
    r.selector.m_driver = (if r.selector.m_using_gui then DriverPtr.gui else DriverPtr.follower) →
    (handleAll r es).1.selector.m_driver
      = (if (handleAll r es).1.selector.m_using_gui then DriverPtr.gui else DriverPtr.follower)
  | [], _, h => h
  | e :: es, r, h => by
    simp only [handleAll]
    apply handleAll_selector_inv es
    rcases OnEvent_selector_cases e.1 r e.2 with h1 | h1 | h1 <;> rw [h1]
    · exact h
    · rfl
    · rfl

/-- C8. A fresh selector selects the follower with `UsingGUI()` false. After
any sequence of events `GetDriver()` is the GUI driver when `UsingGUI()` is
true and the follower when it is false. From any such state a released COMMA
leaves the follower selected and a released PERIOD leaves the GUI driver
selected, and handling the same release a second time changes nothing. -/
theorem C8_driver_selection (f : ChPathFollowerDriver) (g : ChIrrGuiDriver)
    (es : List (Double × SEvent)) (t : Double) :
    ChDriverSelector.new.UsingGUI = false ∧
    ChDriverSelector.new.GetDriver = DriverPtr.follower ∧
    (afterEvents f g es).selector.GetDriver
      = (if (afterEvents f g es).selector.UsingGUI then DriverPtr.gui else DriverPtr.follower) ∧
    (ChDriverSelector.OnEvent t (afterEvents f g es) (keyReleased KEY_COMMA)).rig.selector
      = { m_using_gui := false, m_driver := DriverPtr.follower } ∧
    (ChDriverSelector.OnEvent t
        (ChDriverSelector.OnEvent t (afterEvents f g es) (keyReleased KEY_COMMA)).rig
        (keyReleased KEY_COMMA)).rig
      = (ChDriverSelector.OnEvent t (afterEvents f g es) (keyReleased KEY_COMMA)).rig ∧
    (ChDriverSelector.OnEvent t (afterEvents f g es) (keyReleased KEY_PERIOD)).rig.selector
      = { m_using_gui := true, m_driver := DriverPtr.gui } ∧
    (ChDriverSelector.OnEvent t
        (ChDriverSelector.OnEvent t (afterEvents f g es) (keyReleased KEY_PERIOD)).rig
        (keyReleased KEY_PERIOD)).rig
      = (ChDriverSelector.OnEvent t (afterEvents f g es) (keyReleased KEY_PERIOD)).rig := by
  have hinv := handleAll_selector_inv es
    { selector := ChDriverSelector.new, driver_follower := f, driver_gui := g } rfl
  change (afterEvents f g es).selector.m_driver
      = (if (afterEvents f g es).selector.m_using_gui then DriverPtr.gui else DriverPtr.follower)
    at hinv
  generalize afterEvents f g es = r at hinv ⊢
  obtain ⟨⟨ug, d⟩, fo, gu⟩ := r
  simp only at hinv
  refine ⟨rfl, rfl, hinv, ?_, ?_, ?_, ?_⟩ <;>
    cases ug <;>
    simp_all [ChDriverSelector.OnEvent, keyReleased, KEY_COMMA, KEY_PERIOD]

theorem keyReleased_iff (e : SEvent) (k : Nat) :
    e = keyReleased k ↔
      e.EventType = EEVENT_TYPE.EET_KEY_INPUT_EVENT ∧ e.KeyInput.PressedDown = false ∧
        e.KeyInput.Key = k := by
  obtain ⟨ty, ⟨key, down⟩⟩ := e
  simp only [keyReleased, SEvent.mk.injEq, SKeyInput.mk.injEq]
  tauto

theorem OnEvent_alternating (t : Double) (r : Rig) (e : SEvent) :
    ∀ cs : List Call,
      alternating (ChDriverSelector.OnEvent t r e).rig.driver_follower.m_steeringPID.m_collect cs
          = true →
        alternating r.driver_follower.m_steeringPID.m_collect
          ((ChDriverSelector.OnEvent t r e).calls ++ cs) = true := by
  intro cs
  unfold ChDriverSelector.OnEvent
  split_ifs with h1 h2 h3 h4 h5 h6 h7 h8 h9 h10 h11 <;>
    simp_all [alternating, ChPathSteeringController.StartDataCollection,
      ChPathSteeringController.StopDataCollection]

theorem handleAll_alternating : ∀ (es : List (Double × SEvent)) (r : Rig),
    alternating r.driver_follower.m_steeringPID.m_collect (handleAll r es).2 = true
  | [], _ => by simp [handleAll, alternating]
  | e :: es, r => by
    simp only [handleAll]
    exact OnEvent_alternating e.1 r e.2 _ (handleAll_alternating es _)

theorem OnEvent_start_iff (t : Double) (r : Rig) (e : SEvent) :
    Call.StartDataCollection ∈ (ChDriverSelector.OnEvent t r e).calls ↔
      e = keyReleased KEY_HOME ∧ r.selector.m_using_gui = false ∧
        r.driver_follower.m_steeringPID.m_collect = false := by
  rw [keyReleased_iff]
  unfold ChDriverSelector.OnEvent
  split_ifs <;> simp_all [KEY_COMMA, KEY_PERIOD, KEY_HOME, KEY_END, KEY_INSERT]

theorem OnEvent_stop_iff (t : Double) (r : Rig) (e : SEvent) :
    Call.StopDataCollection ∈ (ChDriverSelector.OnEvent t r e).calls ↔
      e = keyReleased KEY_END ∧ r.selector.m_using_gui = false ∧
        r.driver_follower.m_steeringPID.m_collect = true := by
  rw [keyReleased_iff]
  unfold ChDriverSelector.OnEvent
  split_ifs <;> simp_all [KEY_COMMA, KEY_PERIOD, KEY_HOME, KEY_END, KEY_INSERT]

theorem OnEvent_write_iff (t : Double) (r : Rig) (e : SEvent) :
    (∃ u, Call.WriteOutputFile u ∈ (ChDriverSelector.OnEvent t r e).calls) ↔
      e = keyReleased KEY_INSERT ∧ r.selector.m_using_gui = false ∧
        r.driver_follower.m_steeringPID.m_csv = true := by
  rw [keyReleased_iff]
  unfold ChDriverSelector.OnEvent
  split_ifs <;> simp_all [KEY_COMMA, KEY_PERIOD, KEY_HOME, KEY_END, KEY_INSERT]

theorem OnEvent_gui_selected (t : Double) (r : Rig) (e : SEvent)
    (hg : r.selector.m_using_gui = true)
    (he : e = keyReleased KEY_HOME ∨ e = keyReleased KEY_END ∨ e = keyReleased KEY_INSERT) :
    ChDriverSelector.OnEvent t r e = { ret := true, rig := r, calls := [] } := by
  simp only [keyReleased_iff] at he
  unfold ChDriverSelector.OnEvent
  split_ifs <;> first | rfl | (exfalso; simp_all [KEY_COMMA, KEY_PERIOD, KEY_HOME, KEY_END, KEY_INSERT])

/-- C9. `OnEvent` calls `StartDataCollection` exactly on a released HOME while
the follower is selected and collection is disabled, `StopDataCollection`
exactly on a released END while the follower is selected and collection is
enabled, and `WriteOutputFile` exactly on a released INSERT while the follower
is selected and data is available. While the GUI driver is selected a released
HOME, END or INSERT changes nothing and makes no call. Over any sequence of
events the start and stop calls alternate; from a follower that is not
collecting (as a newly built one) the first of them is a start. -/
theorem C9_data_collection (t : Double) (r : Rig) (e : SEvent) (es : List (Double × SEvent))
    (path : ChBezierCurve) (marks : ChVector × ChVector) (g : ChIrrGuiDriver) :
    (Call.StartDataCollection ∈ (ChDriverSelector.OnEvent t r e).calls ↔
      e = keyReleased KEY_HOME ∧ r.selector.m_using_gui = false ∧
        r.driver_follower.m_steeringPID.m_collect = false) ∧
    (Call.StopDataCollection ∈ (ChDriverSelector.OnEvent t r e).calls ↔
      e = keyReleased KEY_END ∧ r.selector.m_using_gui = false ∧
        r.driver_follower.m_steeringPID.m_collect = true) ∧
    ((∃ u, Call.WriteOutputFile u ∈ (ChDriverSelector.OnEvent t r e).calls) ↔
      e = keyReleased KEY_INSERT ∧ r.selector.m_using_gui = false ∧
        r.driver_follower.m_steeringPID.m_csv = true) ∧
    (r.selector.m_using_gui = true →
      (e = keyReleased KEY_HOME ∨ e = keyReleased KEY_END ∨ e = keyReleased KEY_INSERT) →
      ChDriverSelector.OnEvent t r e = { ret := true, rig := r, calls := [] }) ∧
    alternating r.driver_follower.m_steeringPID.m_collect (handleAll r es).2 = true ∧
    alternating false
      (handleAll
        { selector := ChDriverSelector.new,
          driver_follower := ChPathFollowerDriver.create path target_speed marks,
          driver_gui := g } es).2 = true :=
  ⟨OnEvent_start_iff t r e, OnEvent_stop_iff t r e, OnEvent_write_iff t r e,
    OnEvent_gui_selected t r e, handleAll_alternating es r,
    handleAll_alternating es
      { selector := ChDriverSelector.new,
        driver_follower := ChPathFollowerDriver.create path target_speed marks,
        driver_gui := g }⟩

/-- C10. An event that is not a keyboard event, and a keyboard event with
`PressedDown` set, make `OnEvent` return false with the selector, both drivers
and the data-collection state unchanged and no call made; `OnEvent` returns
true exactly for a key release of COMMA, PERIOD, HOME, END or INSERT. -/
theorem C10_only_key_releases (t : Double) (r : Rig) (e : SEvent) :
    ((e.EventType ≠ EEVENT_TYPE.EET_KEY_INPUT_EVENT ∨ e.KeyInput.PressedDown = true) →
      ChDriverSelector.OnEvent t r e = { ret := false, rig := r, calls := [] }) ∧
    ((ChDriverSelector.OnEvent t r e).ret = true ↔
      e.EventType = EEVENT_TYPE.EET_KEY_INPUT_EVENT ∧ e.KeyInput.PressedDown = false ∧
        (e.KeyInput.Key = KEY_COMMA ∨ e.KeyInput.Key = KEY_PERIOD ∨ e.KeyInput.Key = KEY_HOME ∨
          e.KeyInput.Key = KEY_END ∨ e.KeyInput.Key = KEY_INSERT)) := by
  constructor
  · intro h
    unfold ChDriverSelector.OnEvent
    rcases h with h | h
    · rw [if_pos h]
    · split_ifs <;> rfl
  · unfold ChDriverSelector.OnEvent
    split_ifs <;> simp_all

/-! ## Hand-over to the GUI driver -/

theorem OnEvent_period_follower (t : Double) (r : Rig) (h : r.selector.m_using_gui = false) :
    ChDriverSelector.OnEvent t r (keyReleased KEY_PERIOD)
      = { ret := true,
          rig :=
            { selector := { m_using_gui := true, m_driver := DriverPtr.gui },
              driver_follower := r.driver_follower,
              driver_gui :=
                { m_throttle := r.driver_follower.m_throttle,
                  m_steering := r.driver_follower.m_steering,
                  m_braking := r.driver_follower.m_braking } },
          calls := [] } := by
  simp [ChDriverSelector.OnEvent, keyReleased, KEY_COMMA, KEY_PERIOD, h,
    ChIrrGuiDriver.SetThrottle, ChIrrGuiDriver.SetSteering, ChIrrGuiDriver.SetBraking]

theorem OnEvent_period_gui (t : Double) (r : Rig) (h : r.selector.m_using_gui = true) :
    ChDriverSelector.OnEvent t r (keyReleased KEY_PERIOD)
      = { ret := true, rig := r, calls := [] } := by
  simp [ChDriverSelector.OnEvent, keyReleased, KEY_COMMA, KEY_PERIOD, h]

/-- C11. In a state where the follower is selected, a released PERIOD sets the
throttle, steering and braking of the GUI driver to those of the follower,
leaves the follower as it is and selects the GUI driver, so the command read
through `GetDriver()` right after the switch is the command read right before
it; this holds in particular in every state reached from a fresh selector
with `UsingGUI()` false. In a state where the GUI driver is already selected,
a released PERIOD changes nothing, the inputs of the GUI driver included. -/
theorem C11_bumpless_handover (t : Double) (r : Rig) (f : ChPathFollowerDriver)
    (g : ChIrrGuiDriver) (es : List (Double × SEvent)) :
    (r.selector.UsingGUI = false → r.selector.GetDriver = DriverPtr.follower →
      (ChDriverSelector.OnEvent t r (keyReleased KEY_PERIOD)).rig.driver_gui.m_throttle
          = r.driver_follower.m_throttle ∧
        (ChDriverSelector.OnEvent t r (keyReleased KEY_PERIOD)).rig.driver_gui.m_steering
          = r.driver_follower.m_steering ∧
        (ChDriverSelector.OnEvent t r (keyReleased KEY_PERIOD)).rig.driver_gui.m_braking
          = r.driver_follower.m_braking ∧
        (ChDriverSelector.OnEvent t r (keyReleased KEY_PERIOD)).rig.driver_follower
          = r.driver_follower ∧
        (ChDriverSelector.OnEvent t r (keyReleased KEY_PERIOD)).rig.selector.GetDriver
          = DriverPtr.gui ∧
        (ChDriverSelector.OnEvent t r (keyReleased KEY_PERIOD)).rig.selector.UsingGUI = true ∧
        (ChDriverSelector.OnEvent t r (keyReleased KEY_PERIOD)).rig.command = r.command) ∧
    ((afterEvents f g es).selector.UsingGUI = false →
      (ChDriverSelector.OnEvent t (afterEvents f g es) (keyReleased KEY_PERIOD)).rig.command
          = (afterEvents f g es).command ∧
        (ChDriverSelector.OnEvent t (afterEvents f g es)
            (keyReleased KEY_PERIOD)).rig.selector.GetDriver = DriverPtr.gui) ∧
    (r.selector.UsingGUI = true →
      ChDriverSelector.OnEvent t r (keyReleased KEY_PERIOD)
          = { ret := true, rig := r, calls := [] } ∧
        (ChDriverSelector.OnEvent t r (keyReleased KEY_PERIOD)).rig.driver_gui
          = r.driver_gui) := by
  refine ⟨?_, ?_, ?_⟩
  · intro hu hd
    rw [OnEvent_period_follower t r hu]
    refine ⟨rfl, rfl, rfl, rfl, rfl, rfl, ?_⟩
    simp only [Rig.command, hd, ChDriverSelector.GetDriver]
    simp only [ChDriverSelector.GetDriver] at hd
    rw [hd]
  · intro hu
    have hinv := handleAll_selector_inv es
      { selector := ChDriverSelector.new, driver_follower := f, driver_gui := g } rfl
    change (afterEvents f g es).selector.m_driver
        = (if (afterEvents f g es).selector.m_using_gui then DriverPtr.gui
            else DriverPtr.follower) at hinv
    have hu2 : (afterEvents f g es).selector.m_using_gui = false := hu
    rw [hu2] at hinv
    simp only [Bool.false_eq_true, if_false] at hinv
    rw [OnEvent_period_follower t _ hu2]
    refine ⟨?_, rfl⟩
    simp only [Rig.command, ChDriverSelector.GetDriver, hinv]
  · intro hu
    rw [OnEvent_period_gui t r hu]
    exact ⟨rfl, rfl⟩

/-- C11, on the sample run: the follower built at startup on P1, stepped once
(throttle 1), then PERIOD released once and once more. -/
theorem C11_bumpless_handover_witness :
    (ChDriverSelector.OnEvent (Double.num 0)
        { selector := ChDriverSelector.new,
          driver_follower := sampleStep sampleState.rig.driver_follower,
          driver_gui := ChIrrGuiDriver.create }
        (keyReleased KEY_PERIOD)).rig.command
      = (Double.num 1, Double.num 0, Double.num 0) ∧
    (ChDriverSelector.OnEvent (Double.num 0)
        { selector := ChDriverSelector.new,
          driver_follower := sampleStep sampleState.rig.driver_follower,
          driver_gui := ChIrrGuiDriver.create }
        (keyReleased KEY_PERIOD)).rig.driver_gui.m_throttle = Double.num 1 ∧
    (ChDriverSelector.OnEvent (Double.num 0)
        { selector := { m_using_gui := true, m_driver := DriverPtr.gui },
          driver_follower := sampleStep sampleState.rig.driver_follower,
          driver_gui := ChIrrGuiDriver.create }
        (keyReleased KEY_PERIOD)).rig.driver_gui = ChIrrGuiDriver.create := by
  have h1 := (C11_bumpless_handover (Double.num 0)
    { selector := ChDriverSelector.new,
      driver_follower := sampleStep sampleState.rig.driver_follower,
      driver_gui := ChIrrGuiDriver.create }
    sampleState.rig.driver_follower ChIrrGuiDriver.create []).1 rfl rfl
  have h2 := (C11_bumpless_handover (Double.num 0)
    { selector := { m_using_gui := true, m_driver := DriverPtr.gui },
      driver_follower := sampleStep sampleState.rig.driver_follower,
      driver_gui := ChIrrGuiDriver.create }
    sampleState.rig.driver_follower ChIrrGuiDriver.create []).2.2 rfl
  exact ⟨h1.2.2.2.2.2.2.trans (by decide), h1.1.trans (by decide), h2.2⟩

end TrajFollower
